import Mathlib

/-!
# Verification of the `DotField` random dot field utility

A shallow embedding of `src/dot_field.py`.  Floating-point numbers are
modelled as real numbers, the numpy random generator as an abstract stream
`u : ℕ → ℝ` of unit-uniform draws (numpy's `uniform(lo, hi, n)` consumes
`n` consecutive unit draws and maps each to `lo + (hi - lo) * u`), and the
`N × 2` numpy position array as a `List (ℝ × ℝ)`.  The state-mutating
method `update` becomes a function from the old field to
`Except String DotField`: `.ok` carries the new state (whose `positions`
are also the returned copy), `.error` carries the `ValueError` message.
-/

noncomputable section

/-- The `DotField` state: the rectangular extent and the current dot
positions (`self.width`, `self.height`, `self.positions`). -/
structure DotField where
  width : ℝ
  height : ℝ
  positions : List (ℝ × ℝ)

namespace DotField

/-- Python `int()` applied to a real value: truncation toward zero. -/
def intTrunc (r : ℝ) : ℤ := if 0 ≤ r then ⌊r⌋ else ⌈r⌉

/-- Dot count, `count = int(self.width * self.height * self.dot_density)`
(line 54 of `src/dot_field.py`). -/
def dotCount (width height dot_density : ℝ) : ℕ :=
  (intTrunc (width * height * dot_density)).toNat

/-- Model of `rng.uniform(lo, hi, n)` where the generator's unit-uniform stream is
`u` and the next unread stream index is `start`: each of the `n` draws is
`lo + (hi - lo) * u i` for consecutive indices `i`. -/
def uniformDraws (u : ℕ → ℝ) (start : ℕ) (lo hi : ℝ) (n : ℕ) : List ℝ :=
  (List.range n).map (fun i => lo + (hi - lo) * u (start + i))

/-- Model of `DotField._initialize_positions` (lines 53-57): draw `count`
x-coordinates uniformly from `[0, width)`, then `count` y-coordinates
uniformly from `[0, height)`, and pair them index-for-index
(`np.vstack([x, y]).T`). -/
def initializePositions (u : ℕ → ℝ) (width height dot_density : ℝ) :
    List (ℝ × ℝ) :=
  let count := dotCount width height dot_density
  let x := uniformDraws u 0 0 width count
  let y := uniformDraws u count 0 height count
  x.zip y

/-- Model of `DotField.__init__(width, height, dot_density, rng)`: store the extent
and initialize the positions from the random stream `u`. -/
def init (width height dot_density : ℝ) (u : ℕ → ℝ) : DotField :=
  ⟨width, height, initializePositions u width height dot_density⟩

/-- Apply a 2×2 matrix (given as rows) to a column vector, as in
`shifted @ rot_matrix.T`: row `i` of the result is the matrix row `i`
dotted with the shifted point. -/
def applyMat (m : (ℝ × ℝ) × (ℝ × ℝ)) (v : ℝ × ℝ) : ℝ × ℝ :=
  (m.1.1 * v.1 + m.1.2 * v.2, m.2.1 * v.1 + m.2.2 * v.2)

/-- Source line 85: `rot_matrix = np.array([[cos_a, -sin_a], [sin_a, cos_a]])`. -/
def rotMatrix (a : ℝ) : (ℝ × ℝ) × (ℝ × ℝ) :=
  ((Real.cos a, -Real.sin a), (Real.sin a, Real.cos a))

/-- Model of `DotField.update(mode, direction, speed)` (lines 59-90).  On success
the result is the new field state; its `positions` are also what the
method returns (as an independent copy).  The `else` branch raises
`ValueError(f"Unsupported mode: {mode}")`, modelled as `.error` with the
same message, leaving the field untouched. -/
def update (f : DotField) (mode : String) (direction : ℝ × ℝ) (speed : ℝ) :
    Except String DotField :=
  if mode = "translation" then
    let dx := direction.1 * speed
    let dy := direction.2 * speed
    .ok ⟨f.width, f.height, f.positions.map (fun p => (p.1 + dx, p.2 + dy))⟩
  else if mode = "cw" ∨ mode = "ccw" then
    let angle := if mode = "ccw" then speed else -speed
    let cx := f.width / 2
    let cy := f.height / 2
    .ok ⟨f.width, f.height,
      f.positions.map (fun p =>
        let r := applyMat (rotMatrix angle) (p.1 - cx, p.2 - cy)
        (r.1 + cx, r.2 + cy))⟩
  else
    .error ("Unsupported mode: " ++ mode)

/-- The rotation formula as the spec words it:
`x' = cx + (x-cx)cos(a) - (y-cy)sin(a)`,
`y' = cy + (x-cx)sin(a) + (y-cy)cos(a)`. -/
def specRotate (cx cy a : ℝ) (p : ℝ × ℝ) : ℝ × ℝ :=
  (cx + (p.1 - cx) * Real.cos a - (p.2 - cy) * Real.sin a,
   cy + (p.1 - cx) * Real.sin a + (p.2 - cy) * Real.cos a)

/-- One `update` call as seen by a caller that keeps going after a raised
`ValueError`: a successful call installs the new state, a failed call
leaves the state exactly as it was. -/
def step (f : DotField) (c : String × (ℝ × ℝ) × ℝ) : DotField :=
  match update f c.1 c.2.1 c.2.2 with
  | .ok f' => f'
  | .error _ => f

/-- A whole sequence of `update` calls, applied in order. -/
def runCalls (f : DotField) (cs : List (String × (ℝ × ℝ) × ℝ)) : DotField :=
  cs.foldl step f

/-- Euclidean distance from a point to the field center
`(width/2, height/2)`. -/
def distToCenter (width height : ℝ) (p : ℝ × ℝ) : ℝ :=
  Real.sqrt ((p.1 - width / 2) ^ 2 + (p.2 - height / 2) ^ 2)

end DotField

namespace DotField

/-! ## Helper lemmas shared by the claim theorems -/

/-- The initial positions, written as one map over the dot indices. -/
lemma initializePositions_eq (u : ℕ → ℝ) (w h d : ℝ) :
    initializePositions u w h d =
      (List.range (dotCount w h d)).map
        (fun i => (w * u i, h * u (dotCount w h d + i))) := by
  unfold initializePositions uniformDraws
  rw [List.zip_map']
  simp

lemma intTrunc_of_nonneg {r : ℝ} (hr : 0 ≤ r) : intTrunc r = ⌊r⌋ := by
  simp [intTrunc, hr]

lemma update_translation_eq (f : DotField) (direction : ℝ × ℝ) (s : ℝ) :
    update f "translation" direction s =
      .ok ⟨f.width, f.height,
        f.positions.map
          (fun p => (p.1 + direction.1 * s, p.2 + direction.2 * s))⟩ := by
  simp [update]

lemma update_ccw_eq (f : DotField) (direction : ℝ × ℝ) (s : ℝ) :
    update f "ccw" direction s =
      .ok ⟨f.width, f.height,
        f.positions.map (specRotate (f.width / 2) (f.height / 2) s)⟩ := by
  rw [update, if_neg (by decide)]
  norm_num
  intro a b _
  simp [applyMat, rotMatrix, specRotate]
  constructor <;> ring

lemma update_cw_eq (f : DotField) (direction : ℝ × ℝ) (s : ℝ) :
    update f "cw" direction s =
      .ok ⟨f.width, f.height,
        f.positions.map (specRotate (f.width / 2) (f.height / 2) (-s))⟩ := by
  rw [update, if_neg (by decide)]
  norm_num
  intro a b _
  rw [if_neg (by decide)]
  simp [applyMat, rotMatrix, specRotate]
  constructor <;> ring

lemma update_invalid_eq (f : DotField) (mode : String) (direction : ℝ × ℝ)
    (s : ℝ) (h1 : mode ≠ "translation") (h2 : mode ≠ "cw")
    (h3 : mode ≠ "ccw") :
    update f mode direction s = .error ("Unsupported mode: " ++ mode) := by
  rw [update, if_neg h1, if_neg (by simp [h2, h3])]

/-- Rotating by `a` and then by `-a` about the same center is the
identity. -/
lemma specRotate_inv (cx cy a : ℝ) (p : ℝ × ℝ) :
    specRotate cx cy (-a) (specRotate cx cy a p) = p := by
  have hsc := Real.sin_sq_add_cos_sq a
  obtain ⟨x, y⟩ := p
  simp only [specRotate, Real.cos_neg, Real.sin_neg, Prod.mk.injEq]
  constructor
  · linear_combination (x - cx) * hsc
  · linear_combination (y - cy) * hsc

/-- Rotation about the field center preserves the distance to the field
center. -/
lemma distToCenter_specRotate (w h a : ℝ) (p : ℝ × ℝ) :
    distToCenter w h (specRotate (w / 2) (h / 2) a p) = distToCenter w h p := by
  have hsc := Real.sin_sq_add_cos_sq a
  unfold distToCenter specRotate
  congr 1
  linear_combination ((p.1 - w / 2) ^ 2 + (p.2 - h / 2) ^ 2) * hsc

/-- A single call, whatever its mode, never changes the number of dots or
the field extent. -/
lemma step_preserves (f : DotField) (c : String × (ℝ × ℝ) × ℝ) :
    (step f c).positions.length = f.positions.length ∧
    (step f c).width = f.width ∧ (step f c).height = f.height := by
  obtain ⟨mode, d, s⟩ := c
  by_cases h1 : mode = "translation"
  · subst h1
    simp [step, update_translation_eq]
  · by_cases h2 : mode = "cw"
    · subst h2
      simp [step, update_cw_eq]
    · by_cases h3 : mode = "ccw"
      · subst h3
        simp [step, update_ccw_eq]
      · simp [step, update_invalid_eq f mode d s h1 h2 h3]

/-- A degenerate unit-uniform stream (every draw is 0), used to
instantiate hypotheses at concrete inputs. -/
def zeroStream : ℕ → ℝ := fun _ => 0

/-! ## Claim theorems -/

/-- C1: for every width `w > 0`, height `h > 0` and density `d ∈ [0,1]`,
a freshly constructed field has exactly `⌊w * h * d⌋` positions, the
truncation toward zero of the non-negative product agreeing with its
floor. -/
theorem count_invariant (w h d : ℝ) (u : ℕ → ℝ) (hw : 0 < w) (hh : 0 < h)
    (hd0 : 0 ≤ d) (_hd1 : d ≤ 1) :
    ((init w h d u).positions.length : ℤ) = ⌊w * h * d⌋ := by
  have hprod : 0 ≤ w * h * d := mul_nonneg (mul_nonneg hw.le hh.le) hd0
  have hlen : (init w h d u).positions.length = dotCount w h d := by
    simp [init, initializePositions_eq]
  rw [hlen, dotCount, intTrunc_of_nonneg hprod,
    Int.toNat_of_nonneg (Int.floor_nonneg.2 hprod)]

/-- Witness for C1 at `w = 200`, `h = 150`, `d = 1/100`. -/
theorem count_invariant_witness :
    (((init 200 150 (1 / 100) zeroStream).positions.length : ℤ) =
      ⌊(200 : ℝ) * 150 * (1 / 100)⌋) :=
  count_invariant 200 150 (1 / 100) zeroStream (by norm_num) (by norm_num)
    (by norm_num) (by norm_num)

/-- C2: every initial position lies in `[0, w) × [0, h)`, and position `i`
is the pair of the `i`-th x-draw from `[0, w)` and the `i`-th y-draw from
`[0, h)` (the y-draws start after the `count` x-draws in the stream),
paired index-for-index. -/
theorem init_bounds_and_pairing (w h d : ℝ) (u : ℕ → ℝ) (hw : 0 < w)
    (hh : 0 < h) (hu : ∀ i, 0 ≤ u i ∧ u i < 1) :
    (∀ p ∈ (init w h d u).positions,
        0 ≤ p.1 ∧ p.1 < w ∧ 0 ≤ p.2 ∧ p.2 < h) ∧
    ∀ i (hi : i < (init w h d u).positions.length),
      (init w h d u).positions.get ⟨i, hi⟩ =
        (w * u i, h * u (dotCount w h d + i)) := by
  constructor
  · intro p hp
    simp only [init, initializePositions_eq, List.mem_map,
      List.mem_range] at hp
    obtain ⟨i, _, rfl⟩ := hp
    refine ⟨mul_nonneg hw.le (hu i).1, mul_lt_of_lt_one_right hw (hu i).2,
      mul_nonneg hh.le (hu _).1, mul_lt_of_lt_one_right hh (hu _).2⟩
  · intro i hi
    simp [init, initializePositions_eq]

/-- Witness for C2 at `w = 2`, `h = 3`, `d = 1`, all draws 0. -/
theorem init_bounds_and_pairing_witness :
    (∀ p ∈ (init 2 3 1 zeroStream).positions,
        0 ≤ p.1 ∧ p.1 < 2 ∧ 0 ≤ p.2 ∧ p.2 < 3) ∧
    ∀ i (hi : i < (init 2 3 1 zeroStream).positions.length),
      (init 2 3 1 zeroStream).positions.get ⟨i, hi⟩ =
        (2 * zeroStream i, 3 * zeroStream (dotCount 2 3 1 + i)) :=
  init_bounds_and_pairing 2 3 1 zeroStream (by norm_num) (by norm_num)
    (fun _ => by norm_num [zeroStream])

/-- C3: an unrecognized mode makes `update` fail with the
`Unsupported mode` message naming the offending value, leaving the state
untouched, and the three recognized modes are exactly the ones that
succeed. -/
theorem invalid_mode_atomic (f : DotField) (mode : String)
    (direction : ℝ × ℝ) (s : ℝ) :
    (mode ≠ "translation" → mode ≠ "cw" → mode ≠ "ccw" →
      update f mode direction s = .error ("Unsupported mode: " ++ mode) ∧
      step f (mode, direction, s) = f) ∧
    (mode = "translation" ∨ mode = "cw" ∨ mode = "ccw" →
      ∃ f', update f mode direction s = .ok f') := by
  constructor
  · intro h1 h2 h3
    have he := update_invalid_eq f mode direction s h1 h2 h3
    exact ⟨he, by simp [step, he]⟩
  · rintro (rfl | rfl | rfl)
    · exact ⟨_, update_translation_eq f direction s⟩
    · exact ⟨_, update_cw_eq f direction s⟩
    · exact ⟨_, update_ccw_eq f direction s⟩

/-- Witness for C3 at mode `"diagonal"`. -/
theorem invalid_mode_atomic_witness :
    update ⟨1, 1, []⟩ "diagonal" (1, 0) 1 =
      .error ("Unsupported mode: " ++ "diagonal") ∧
    step ⟨1, 1, []⟩ ("diagonal", (1, 0), 1) = ⟨1, 1, []⟩ :=
  (invalid_mode_atomic ⟨1, 1, []⟩ "diagonal" (1, 0) 1).1 (by decide)
    (by decide) (by decide)

/-- C4: translation sets `(dx, dy) = (a * s, b * s)` and sends every
position `(x, y)` to exactly `(x + dx, y + dy)`, with no wrap-around and
no clamping to the field bounds. -/
theorem translation_update (f : DotField) (a b s : ℝ) :
    update f "translation" (a, b) s =
      .ok ⟨f.width, f.height,
        f.positions.map (fun p => (p.1 + a * s, p.2 + b * s))⟩ :=
  update_translation_eq f (a, b) s

/-- C5: `"ccw"` rotates every position about the field center by the
spec's formula with angle `+speed`, and `"cw"` applies the same formula
with angle `-speed`, its exact sign-inverse. -/
theorem rotation_modes_formula (f : DotField) (direction : ℝ × ℝ)
    (s : ℝ) :
    update f "ccw" direction s =
      .ok ⟨f.width, f.height,
        f.positions.map (specRotate (f.width / 2) (f.height / 2) s)⟩ ∧
    update f "cw" direction s =
      .ok ⟨f.width, f.height,
        f.positions.map (specRotate (f.width / 2) (f.height / 2) (-s))⟩ :=
  ⟨update_ccw_eq f direction s, update_cw_eq f direction s⟩

/-- C6: a `"ccw"` update by angle `θ` followed by a `"cw"` update by the
same `θ` restores the field exactly (over the reals). -/
theorem rotation_inverse (f : DotField) (d1 d2 : ℝ × ℝ) (θ : ℝ) :
    (update f "ccw" d1 θ).bind (fun f' => update f' "cw" d2 θ) = .ok f := by
  obtain ⟨w, h, ps⟩ := f
  rw [update_ccw_eq]
  show update _ "cw" d2 θ = _
  rw [update_cw_eq]
  simp [List.map_map, Function.comp_def, specRotate_inv]

/-- C7: two successive translations with direction `(a, b)` and speed `s`
give exactly the same result as one translation with speed `2 * s` (over
the reals). -/
theorem translation_additivity (f : DotField) (a b s : ℝ) :
    (update f "translation" (a, b) s).bind
        (fun f' => update f' "translation" (a, b) s) =
      update f "translation" (a, b) (2 * s) := by
  obtain ⟨w, h, ps⟩ := f
  rw [update_translation_eq]
  show update _ "translation" (a, b) s = _
  rw [update_translation_eq, update_translation_eq]
  simp only [List.map_map, Function.comp, Except.ok.injEq, DotField.mk.injEq,
    true_and]
  refine List.map_congr_left (fun p _ => ?_)
  simp only [Function.comp_apply, Prod.mk.injEq]
  constructor <;> ring

/-- C8: a `"ccw"` or `"cw"` update at any speed leaves every dot's
Euclidean distance to the field center `(width/2, height/2)` exactly
unchanged (over the reals). -/
theorem rotation_preserves_center_distance (f : DotField)
    (direction : ℝ × ℝ) (s : ℝ) :
    Except.map (fun f' => f'.positions.map (distToCenter f.width f.height))
        (update f "ccw" direction s) =
      .ok (f.positions.map (distToCenter f.width f.height)) ∧
    Except.map (fun f' => f'.positions.map (distToCenter f.width f.height))
        (update f "cw" direction s) =
      .ok (f.positions.map (distToCenter f.width f.height)) := by
  constructor
  · rw [update_ccw_eq]
    simp only [Except.map, List.map_map, Function.comp, Except.ok.injEq]
    exact List.map_congr_left (fun p _ => distToCenter_specRotate _ _ _ p)
  · rw [update_cw_eq]
    simp only [Except.map, List.map_map, Function.comp, Except.ok.injEq]
    exact List.map_congr_left (fun p _ => distToCenter_specRotate _ _ _ p)

/-- C9: any sequence of calls, in any of the modes and also invalid ones,
preserves the number of dots and never mutates `width` or `height`. -/
theorem shape_and_extent_invariant (f : DotField)
    (cs : List (String × (ℝ × ℝ) × ℝ)) :
    (runCalls f cs).positions.length = f.positions.length ∧
    (runCalls f cs).width = f.width ∧
    (runCalls f cs).height = f.height := by
  induction cs generalizing f with
  | nil => exact ⟨rfl, rfl, rfl⟩
  | cons c cs ih =>
    have hs := step_preserves f c
    have hr : runCalls f (c :: cs) = runCalls (step f c) cs := rfl
    rw [hr]
    exact ⟨((ih _).1).trans hs.1, ((ih _).2.1).trans hs.2.1,
      ((ih _).2.2).trans hs.2.2⟩

/-- C10: when the computed dot count is zero the field starts with an
empty position sequence, and each of the three valid modes still succeeds
on the empty field, returning an empty result. -/
theorem zero_dot_field (w h d : ℝ) (u : ℕ → ℝ) (direction : ℝ × ℝ) (s : ℝ)
    (h0 : dotCount w h d = 0) :
    (init w h d u).positions = [] ∧
    update (init w h d u) "translation" direction s = .ok ⟨w, h, []⟩ ∧
    update (init w h d u) "cw" direction s = .ok ⟨w, h, []⟩ ∧
    update (init w h d u) "ccw" direction s = .ok ⟨w, h, []⟩ := by
  have hp : (init w h d u).positions = [] := by
    simp [init, initializePositions_eq, h0]
  refine ⟨hp, ?_, ?_, ?_⟩
  · rw [update_translation_eq, hp]; rfl
  · rw [update_cw_eq, hp]; rfl
  · rw [update_ccw_eq, hp]; rfl

/-- Witness for C10 at `w = 1`, `h = 1`, `d = 1/2`, whose dot count is
`int(0.5) = 0`. -/
theorem zero_dot_field_witness :
    (init 1 1 (1 / 2) zeroStream).positions = [] ∧
    update (init 1 1 (1 / 2) zeroStream) "translation" (1, 0) 1 =
      .ok ⟨1, 1, []⟩ ∧
    update (init 1 1 (1 / 2) zeroStream) "cw" (1, 0) 1 = .ok ⟨1, 1, []⟩ ∧
    update (init 1 1 (1 / 2) zeroStream) "ccw" (1, 0) 1 = .ok ⟨1, 1, []⟩ :=
  zero_dot_field 1 1 (1 / 2) zeroStream (1, 0) 1
    (by norm_num [dotCount, intTrunc])

end DotField

end
